import Mathlib

/-!
Shallow embedding of the routing / transaction-affinity core of the
`rwproxy` repository (`database/sql/driver` read-write proxy).

The embedding follows the Go sources:
  * `driver.go`   — `Driver.Open`, `ParseCompoundDSN`
  * `conn.go`     — the virtual connection (`writer`, `reader`, `Begin`,
                    `BeginTx`, `beginTx`, `Close`, `waitCloseTx`)
  * `stmt.go`     — the lazily bound prepared statement
                    (`prepared`, `Exec`, `Query`, `Close`)
  * `options.go`  — `RoundRobinReaderSelector`
  * `tx.go`       — transaction commit/rollback and pin release

The delegate driver (an arbitrary `database/sql/driver.Driver`) is
abstracted by a `Delegate` record of behaviour predicates: which DSNs
fail to open, which connection types expose the optional
`driver.ConnBeginTx` capability, which physical begins / prepares /
closes fail.  Physical connections and physical prepared statements are
identified by freshly allocated numeric ids (the mock delegate in the
repository allocates exactly such a counter per `Open`); Go pointer
equality between distinct allocations is modelled by equality of these
ids.  A Go panic is modelled by the dedicated `Res.panics` outcome.
-/

/-- Transaction options (`database/sql/driver.TxOptions`): an isolation
level (`0` is `sql.LevelDefault`) and the read-only flag. -/
structure TxOptions where
  isolation : Nat
  readOnly : Bool
deriving DecidableEq, Repr

/-- A physical delegate connection: the fresh id allocated by the
delegate `Open` and the DSN it was opened for. -/
structure PConn where
  id : Nat
  dsn : String
deriving DecidableEq, Repr

/-- The `proxiedConn` wrapper of `driver.go`: a physical connection
tagged with the role it was opened for. -/
structure ProxiedConn where
  pc : PConn
  role : String
deriving DecidableEq, Repr

/-- Errors surfaced by the proxy or passed through from the delegate. -/
inductive Err where
  | incompleteDSN (dsn : String)
  | delegateOpen (dsn : String)
  | beginTxUnsupported
  | badConn
  | delegateBegin (dsn : String)
  | delegateBeginTx (dsn : String)
  | delegatePrepare (dsn : String)
  | delegateCloseConn (id : Nat)
  | delegateCloseStmt (id : Nat)
  | connCloseAgg (failedIds : List Nat)
  | stmtCloseAgg (failedIds : List Nat)
deriving DecidableEq, Repr

/-- Outcome of an operation: a Go panic, an error return, or success. -/
inductive Res (α : Type) where
  | panics
  | fails (e : Err)
  | ok (a : α)
deriving DecidableEq, Repr

/-- Behaviour of the wrapped delegate driver.  Capabilities are keyed by
the DSN (the endpoint determines which connection type the delegate
returns); failure predicates are deterministic functions of the
DSN/options (resp. of the physical id for closes). -/
structure Delegate where
  openFails : String → Bool
  hasBeginTx : String → Bool
  beginFails : String → Bool
  beginTxFails : String → TxOptions → Bool
  prepareFails : String → Bool
  connCloseFails : Nat → Bool
  stmtCloseFails : Nat → Bool

/-- Mutable state owned by the `Driver` value and the delegate: the
delegate's connection counter (fresh physical ids), the counter of
physical prepared statements, and the round-robin reader cursor shared
by every virtual connection of the driver (`RoundRobinReaderSelector`'s
captured `next`). -/
structure DrvSt where
  conns : Nat
  stmts : Nat
  next : Nat
deriving DecidableEq, Repr

/-- A delegate `Open` call: fails per the delegate, otherwise allocates
a fresh physical connection id (the mock increments `d.conns` and tags
the connection with it). -/
def delegateOpen (d : Delegate) (s : DrvSt) (dsn : String) :
    Except Err PConn × DrvSt :=
  if d.openFails dsn then (.error (.delegateOpen dsn), s)
  else (.ok ⟨s.conns + 1, dsn⟩, { s with conns := s.conns + 1 })

/-- The transaction coordinator as seen by the virtual connection: it
pins exactly one physical connection (`tx.driverConn`). -/
structure Tx where
  driverConn : ProxiedConn
deriving DecidableEq, Repr

/-- The virtual connection (`conn` of `conn.go`): the parsed compound
DSN, the lazily cached writer and reader physical connections, and the
at-most-one active transaction. -/
structure Conn where
  writerDSN : String
  readerDSNs : List String
  writerConn : Option ProxiedConn
  readerConn : Option ProxiedConn
  tx : Option Tx
deriving DecidableEq, Repr

/-- Character-level split on semicolons, the behaviour of Go
`strings.Split(s, ";")`: the empty input yields one empty segment. -/
def splitSemi : List Char → List (List Char)
  | [] => [[]]
  | c :: rest =>
    match splitSemi rest with
    | [] => [[c]]
    | seg :: segs => if c = ';' then [] :: seg :: segs else (c :: seg) :: segs

/-- Splitting step of `ParseCompoundDSN`: split on `";"` and drop empty
segments (Go `strings.Split` followed by the non-empty filter). -/
def parseSegments (dsn : String) : List String :=
  ((splitSemi dsn.data).map (fun cs => String.mk cs)).filter (fun seg => seg ≠ "")

/-- Go `ParseCompoundDSN` (`driver.go`): returns `(dsns[0], dsns[1:])`
of the filtered segment list.  When every segment is empty the filtered
list is empty and the Go code indexes `dsns[0]` out of range — a panic,
modelled by `Res.panics`. -/
def ParseCompoundDSN (dsn : String) : Res (String × List String) :=
  match parseSegments dsn with
  | [] => .panics
  | w :: rs => .ok (w, rs)

/-- Go `Driver.Open` (`driver.go`): parse the compound DSN, return
`IncompleteDSNError` when the writer DSN is empty, otherwise a fresh
virtual connection with no physical state. -/
def DriverOpen (name : String) : Res Conn :=
  match ParseCompoundDSN name with
  | .panics => .panics
  | .fails e => .fails e
  | .ok (w, rs) =>
    if w = "" then .fails (.incompleteDSN name)
    else .ok { writerDSN := w, readerDSNs := rs,
               writerConn := none, readerConn := none, tx := none }

/-- Intended behaviour of `Driver.Open`, modelled from the spec: "empty
segments ignored; zero non-empty segments ⇒ incomplete address error at
open time".  Used to exhibit the divergence of the code. -/
def DriverOpenSpec (name : String) : Res Conn :=
  match parseSegments name with
  | [] => .fails (.incompleteDSN name)
  | w :: rs =>
    .ok { writerDSN := w, readerDSNs := rs,
          writerConn := none, readerConn := none, tx := none }

/-- One step of the default `RoundRobinReaderSelector` (`options.go`):
read the DSN at the shared cursor (a Go index-out-of-range panic when
the cursor exceeds the list), advance the cursor modulo the list
length, then `Open` the chosen DSN on the delegate. -/
def roundRobinStep (d : Delegate) (s : DrvSt) (dsns : List String) :
    Res PConn × DrvSt :=
  match dsns[s.next]? with
  | none => (.panics, s)
  | some dsn =>
    let s1 := { s with next := (s.next + 1) % dsns.length }
    match delegateOpen d s1 dsn with
    | (.ok pc, s2) => (.ok pc, s2)
    | (.error e, s2) => (.fails e, s2)

/-- Go `conn.writer` (`conn.go`): the pinned connection while a
transaction is active, else the cached writer, else a freshly opened
writer connection which becomes the cache. -/
def connWriter (d : Delegate) (s : DrvSt) (c : Conn) :
    Res ProxiedConn × DrvSt × Conn :=
  match c.tx with
  | some t => (.ok t.driverConn, s, c)
  | none =>
    match c.writerConn with
    | some w => (.ok w, s, c)
    | none =>
      match delegateOpen d s c.writerDSN with
      | (.error e, s1) => (.fails e, s1, c)
      | (.ok pc, s1) =>
        let w : ProxiedConn := ⟨pc, "writer"⟩
        (.ok w, s1, { c with writerConn := some w })

/-- Go `conn.reader` (`conn.go`): the pinned connection while a
transaction is active, else the cached reader; otherwise resolve one:
with no reader DSNs alias to the writer, else run the (default
round-robin) selector and on selector failure fall back to the writer.
Whatever results is cached as the reader for the connection's
lifetime. -/
def connReader (d : Delegate) (s : DrvSt) (c : Conn) :
    Res ProxiedConn × DrvSt × Conn :=
  match c.tx with
  | some t => (.ok t.driverConn, s, c)
  | none =>
    match c.readerConn with
    | some r => (.ok r, s, c)
    | none =>
      if c.readerDSNs = [] then
        match connWriter d s c with
        | (.ok w, s1, c1) => (.ok w, s1, { c1 with readerConn := some w })
        | other => other
      else
        match roundRobinStep d s c.readerDSNs with
        | (.panics, s1) => (.panics, s1, c)
        | (.ok pc, s1) =>
          let r : ProxiedConn := ⟨pc, "reader"⟩
          (.ok r, s1, { c with readerConn := some r })
        | (.fails _, s1) =>
          match connWriter d s1 c with
          | (.ok w, s2, c1) => (.ok w, s2, { c1 with readerConn := some w })
          | other => other

/-- Go `conn.Begin` (`conn.go`): fail with `driver.ErrBadConn` while a
transaction is active; otherwise resolve the writer and start a plain
physical transaction on it, pinning it into `c.tx`. -/
def connBegin (d : Delegate) (s : DrvSt) (c : Conn) :
    Res Tx × DrvSt × Conn :=
  match c.tx with
  | some _ => (.fails .badConn, s, c)
  | none =>
    match connWriter d s c with
    | (.ok w, s1, c1) =>
      if d.beginFails w.pc.dsn then (.fails (.delegateBegin w.pc.dsn), s1, c1)
      else
        let t : Tx := ⟨w⟩
        (.ok t, s1, { c1 with tx := some t })
    | (.fails e, s1, c1) => (.fails e, s1, c1)
    | (.panics, s1, c1) => (.panics, s1, c1)

/-- Go `conn.beginTx` (`conn.go`): on a connection type exposing
`driver.ConnBeginTx`, run the options-aware begin and pin the target
connection on success; otherwise report `ErrConnBeginTxUnsupported`. -/
def connBeginTxAux (d : Delegate) (c : Conn) (pc : ProxiedConn)
    (opts : TxOptions) : Except Err (Tx × Conn) :=
  if d.hasBeginTx pc.pc.dsn then
    if d.beginTxFails pc.pc.dsn opts then .error (.delegateBeginTx pc.pc.dsn)
    else
      let t : Tx := ⟨pc⟩
      .ok (t, { c with tx := some t })
  else .error .beginTxUnsupported

/-- The writer tail of Go `conn.BeginTx` (`conn.go`, after the
read-only reader attempt): resolve the writer, try the options-aware
begin on it, and when that is unsupported and the isolation level is
the default (`sql.LevelDefault = 0`) fall back to plain `conn.Begin`. -/
def connBeginTxWriterPath (d : Delegate) (s : DrvSt) (c : Conn)
    (opts : TxOptions) : Res Tx × DrvSt × Conn :=
  match connWriter d s c with
  | (.ok w, s1, c1) =>
    match connBeginTxAux d c1 w opts with
    | .ok (t, c2) => (.ok t, s1, c2)
    | .error e =>
      if e = .beginTxUnsupported ∧ opts.isolation = 0 then connBegin d s1 c1
      else (.fails e, s1, c1)
  | (.fails e, s1, c1) => (.fails e, s1, c1)
  | (.panics, s1, c1) => (.panics, s1, c1)

/-- Go `conn.BeginTx` (`conn.go`): fail with `driver.ErrBadConn` while
a transaction is active.  For read-only options, first try the resolved
reader with the options-aware begin and return its transaction on
success; any reader-path failure falls through to the writer tail. -/
def connBeginTx (d : Delegate) (s : DrvSt) (c : Conn) (opts : TxOptions) :
    Res Tx × DrvSt × Conn :=
  match c.tx with
  | some _ => (.fails .badConn, s, c)
  | none =>
    if opts.readOnly then
      match connReader d s c with
      | (.ok r, s1, c1) =>
        match connBeginTxAux d c1 r opts with
        | .ok (t, c2) => (.ok t, s1, c2)
        | .error _ => connBeginTxWriterPath d s1 c1 opts
      | (.fails _, s1, c1) => connBeginTxWriterPath d s1 c1 opts
      | (.panics, s1, c1) => (.panics, s1, c1)
    else connBeginTxWriterPath d s c opts

/-- Go `conn.Close` (`conn.go`): close the writer connection if cached;
close the reader connection only when it is cached and not the very
connection cached as the writer (Go pointer inequality); collect the
failures of both attempts into one `ConnCloseError`, or return nil.
The second component records the physical connection ids on which a
delegate `Close` was attempted, in order. -/
def connClose (d : Delegate) (c : Conn) : Except Err Unit × List Nat :=
  let wPart :=
    match c.writerConn with
    | some w => ((if d.connCloseFails w.pc.id then [w.pc.id] else []), [w.pc.id])
    | none => ([], [])
  let rPart :=
    match c.readerConn with
    | some r =>
      if c.writerConn = some r then ([], [])
      else ((if d.connCloseFails r.pc.id then [r.pc.id] else []), [r.pc.id])
    | none => ([], [])
  let failed := wPart.1 ++ rPart.1
  ((if failed = [] then .ok () else .error (.connCloseAgg failed)),
   wPart.2 ++ rPart.2)

/-- The proxy prepared statement (`stmt` of `stmt.go`): the query text
and the per-physical-connection map of physical prepared-statement
handles (`proxiedStmts`), modelled as an insertion-ordered association
list keyed by the `proxiedConn` (Go map keyed by the pointer). -/
structure Stmt where
  query : String
  proxiedStmts : List (ProxiedConn × Nat)
deriving DecidableEq, Repr

/-- Go `newStmt` / `conn.Prepare`: a statement with no bindings yet. -/
def newStmt (query : String) : Stmt := ⟨query, []⟩

/-- Lookup in the binding map by physical-connection key. -/
def lookupBinding : List (ProxiedConn × Nat) → ProxiedConn → Option Nat
  | [], _ => none
  | (k, v) :: rest, pc => if k = pc then some v else lookupBinding rest pc

/-- Go `stmt.prepared` (`stmt.go`): return the cached physical binding
for this connection, or prepare the query on the connection, cache the
new binding and return it.  Physical statements get fresh ids from the
driver-state counter. -/
def stmtPrepared (d : Delegate) (s : DrvSt) (st : Stmt) (pc : ProxiedConn) :
    Res Nat × DrvSt × Stmt :=
  match lookupBinding st.proxiedStmts pc with
  | some ps => (.ok ps, s, st)
  | none =>
    if d.prepareFails pc.pc.dsn then (.fails (.delegatePrepare pc.pc.dsn), s, st)
    else
      let ps := s.stmts + 1
      (.ok ps, { s with stmts := ps },
       { st with proxiedStmts := st.proxiedStmts ++ [(pc, ps)] })

/-- Go `stmt.Exec` (`stmt.go`): resolve the writer exactly as the
virtual connection would, bind (preparing if needed) on it, and execute
there.  The result is the id of the physical prepared statement the
execute was delegated to. -/
def stmtExec (d : Delegate) (s : DrvSt) (c : Conn) (st : Stmt) :
    Res Nat × DrvSt × Conn × Stmt :=
  match connWriter d s c with
  | (.ok w, s1, c1) =>
    match stmtPrepared d s1 st w with
    | (.ok ps, s2, st1) => (.ok ps, s2, c1, st1)
    | (.fails e, s2, st1) => (.fails e, s2, c1, st1)
    | (.panics, s2, st1) => (.panics, s2, c1, st1)
  | (.fails e, s1, c1) => (.fails e, s1, c1, st)
  | (.panics, s1, c1) => (.panics, s1, c1, st)

/-- Go `stmt.Query` (`stmt.go`): same as `stmtExec` but resolving the
reader. -/
def stmtQuery (d : Delegate) (s : DrvSt) (c : Conn) (st : Stmt) :
    Res Nat × DrvSt × Conn × Stmt :=
  match connReader d s c with
  | (.ok r, s1, c1) =>
    match stmtPrepared d s1 st r with
    | (.ok ps, s2, st1) => (.ok ps, s2, c1, st1)
    | (.fails e, s2, st1) => (.fails e, s2, c1, st1)
    | (.panics, s2, st1) => (.panics, s2, c1, st1)
  | (.fails e, s1, c1) => (.fails e, s1, c1, st)
  | (.panics, s1, c1) => (.panics, s1, c1, st)

/-- Go `stmt.Close` (`stmt.go`): nothing to do on a never-bound
statement; otherwise close every physical binding, collecting the
failures into one `ProxiedStatementCloseError`.  The second component
records the physical statement ids the close was attempted on. -/
def stmtCloseOp (d : Delegate) (st : Stmt) : Except Err Unit × List Nat :=
  if st.proxiedStmts = [] then (.ok (), [])
  else
    let ids := st.proxiedStmts.map (fun b => b.2)
    let failed := ids.filter (fun i => d.stmtCloseFails i)
    ((if failed = [] then .ok () else .error (.stmtCloseAgg failed)), ids)

/-- State of the transaction pin-release protocol: `slot` is the
occupancy of the single-slot (`make(chan struct\x7b\x7d, 1)`) release
channel of `conn.waitCloseTx`; `listener` is whether the dedicated
listener goroutine is still blocked on the channel; `txSet` is whether
the virtual connection's `tx` field is still set; `releases` counts how
many times the listener cleared the pin. -/
structure RelSt where
  slot : Bool
  listener : Bool
  txSet : Bool
  releases : Nat
deriving DecidableEq, Repr

/-- Protocol state right after `beginTransaction` pinned a connection
and `waitCloseTx` launched the listener. -/
def relInit : RelSt := ⟨false, true, true, 0⟩

/-- Actions of the release protocol: `send` is the commit/rollback side
signalling the channel; `deliver` is the scheduler running the listener
to consume a pending signal. -/
inductive RelAct where
  | send
  | deliver
deriving DecidableEq, Repr

/-- Modelled from the spec: the transaction's `close` — the channel
send half that `tx.go` performs after the physical commit/rollback — is
missing from the sources (only its listener half `conn.waitCloseTx` is
present).  Per the spec it is a "single-slot, non-blocking release
signal": a `select` send with a `default` branch, so a second signal is
simply dropped. -/
def relSend (st : RelSt) : RelSt :=
  if st.slot then st else { st with slot := true }

/-- Go `conn.waitCloseTx`'s listener goroutine (`conn.go`): consume one
signal from the channel, clear the connection's `tx` field and exit. -/
def relDeliver (st : RelSt) : RelSt :=
  if st.listener && st.slot then
    { slot := false, listener := false, txSet := false,
      releases := st.releases + 1 }
  else st

/-- One protocol step. -/
def relStep (st : RelSt) : RelAct → RelSt
  | .send => relSend st
  | .deliver => relDeliver st

/-- Run a schedule of protocol actions from a state. -/
def relRun (st : RelSt) : List RelAct → RelSt
  | [] => st
  | a :: rest => relRun (relStep st a) rest

/-- Number of commit/rollback release signals in a schedule. -/
def sendCount : List RelAct → Nat
  | [] => 0
  | .send :: rest => sendCount rest + 1
  | .deliver :: rest => sendCount rest

/-- Iterate the default round-robin reader selector, threading the
shared driver state: exactly what successive reader resolutions across
the virtual connections of one connector perform.  Returns the list of
selection outcomes and the final state. -/
def rrRun (d : Delegate) (dsns : List String) :
    Nat → DrvSt → List (Res PConn) × DrvSt
  | 0, s => ([], s)
  | k + 1, s =>
    match roundRobinStep d s dsns with
    | (r, s1) =>
      match rrRun d dsns k s1 with
      | (rs, s2) => (r :: rs, s2)

/-- The DSN an individual selection connected to, if it succeeded. -/
def pickDSN : Res PConn → Option String
  | .ok pc => some pc.dsn
  | _ => none

/-- Delegate with no failures and no optional `ConnBeginTx`
capability. -/
def dPlain : Delegate :=
  ⟨fun _ => false, fun _ => false, fun _ => false, fun _ _ => false,
   fun _ => false, fun _ => false, fun _ => false⟩

/-- Delegate with no failures where only the writer endpoint "w"
exposes `ConnBeginTx`. -/
def dWriterBtx : Delegate :=
  ⟨fun _ => false, fun dsn => dsn = "w", fun _ => false, fun _ _ => false,
   fun _ => false, fun _ => false, fun _ => false⟩

/-- Initial driver state. -/
def st0 : DrvSt := ⟨0, 0, 0⟩

/-- A freshly opened virtual connection for a writer DSN and a reader
DSN list (exactly what `Driver.Open` builds). -/
def freshConn (w : String) (rs : List String) : Conn :=
  ⟨w, rs, none, none, none⟩

/-- A pinned physical connection used in concrete witnesses. -/
def pinnedPC : ProxiedConn := ⟨⟨7, "w"⟩, "writer"⟩

/-- A virtual connection with an active transaction pinned to
`pinnedPC`, used in concrete witnesses. -/
def cInTx : Conn := ⟨"w", ["r1"], none, none, some ⟨pinnedPC⟩⟩

/-- Invariant of the pin-release protocol, parameterized by whether a
release signal has been sent so far: at most one release ever happens;
the listener is alive exactly while no release happened; the
transaction pin is held exactly while no release happened; before any
signal the slot is empty and nothing was released; after a signal, a
still-alive listener has a pending signal in the slot. -/
def RelInv (sent : Prop) (st : RelSt) : Prop :=
  st.releases ≤ 1 ∧
  (st.listener = true ↔ st.releases = 0) ∧
  (st.txSet = true ↔ st.releases = 0) ∧
  (¬ sent → st.slot = false ∧ st.releases = 0) ∧
  (sent → st.listener = true → st.slot = true)

/-- C1: the code panics (index out of range in `ParseCompoundDSN`) on
every-segment-empty compound DSNs instead of returning the
`IncompleteDSNError` that the spec (and the dead `wdsn == ""` guard in
`Driver.Open`) promises.  Evaluating the embedded code at the failing
inputs, against the spec-modelled intent. -/
theorem driverOpen_panics_on_empty_dsn :
    DriverOpen "" = .panics ∧ DriverOpen ";" = .panics ∧
    DriverOpen ";;" = .panics ∧
    DriverOpenSpec "" = .fails (.incompleteDSN "") ∧
    DriverOpenSpec ";" = .fails (.incompleteDSN ";") := by
  refine ⟨?_, ?_, ?_, ?_, ?_⟩ <;> rfl

/-- C2: while a transaction is active, both writer resolution and
reader resolution return the transaction's pinned physical connection,
leave the virtual connection untouched and open no new physical
connection (the driver state, including the delegate's connection
counter, is unchanged). -/
theorem resolve_pinned_in_tx (d : Delegate) (s : DrvSt) (c : Conn) (t : Tx)
    (htx : c.tx = some t) :
    connWriter d s c = (.ok t.driverConn, s, c) ∧
    connReader d s c = (.ok t.driverConn, s, c) := by
  constructor <;> simp only [connWriter, connReader, htx]

/-- Witness for C2 at a concrete pinned connection. -/
theorem resolve_pinned_in_tx_witness :
    connWriter dPlain st0 cInTx = (.ok pinnedPC, st0, cInTx) ∧
    connReader dPlain st0 cInTx = (.ok pinnedPC, st0, cInTx) :=
  resolve_pinned_in_tx dPlain st0 cInTx ⟨pinnedPC⟩ rfl

/-- C3: a second `Begin` or `BeginTx` while a transaction is active
fails with `driver.ErrBadConn`, opens no physical connection and starts
no physical transaction: the driver state and virtual connection are
returned unchanged. -/
theorem begin_fails_while_in_tx (d : Delegate) (s : DrvSt) (c : Conn)
    (t : Tx) (opts : TxOptions) (htx : c.tx = some t) :
    connBegin d s c = (.fails .badConn, s, c) ∧
    connBeginTx d s c opts = (.fails .badConn, s, c) := by
  constructor <;> simp only [connBegin, connBeginTx, htx]

/-- Writer resolution never panics. -/
theorem connWriter_no_panic (d : Delegate) (s : DrvSt) (c : Conn) :
    (connWriter d s c).1 ≠ Res.panics := by
  obtain ⟨wd, rds, wc, rc, tx⟩ := c
  rcases tx with _ | t <;> rcases wc with _ | w <;>
    simp [connWriter, delegateOpen] <;>
    by_cases ho : d.openFails wd <;> simp [ho]

/-- Writer resolution only touches the writer cache: all other fields
of the virtual connection are preserved, and a newly cached writer was
opened from the connection's writer DSN. -/
theorem connWriter_fields (d : Delegate) (s : DrvSt) (c : Conn) :
    (connWriter d s c).2.2.writerDSN = c.writerDSN ∧
    (connWriter d s c).2.2.readerDSNs = c.readerDSNs ∧
    (connWriter d s c).2.2.readerConn = c.readerConn ∧
    (connWriter d s c).2.2.tx = c.tx ∧
    (∀ w, (connWriter d s c).2.2.writerConn = some w →
      c.writerConn = some w ∨ w.pc.dsn = c.writerDSN) := by
  obtain ⟨wd, rds, wc, rc, tx⟩ := c
  rcases tx with _ | t <;> rcases wc with _ | w <;>
    simp [connWriter, delegateOpen] <;>
    by_cases ho : d.openFails wd <;> simp [ho] <;> tauto

/-- When a transaction is not active, the writer open succeeds and
every cached writer was opened from the writer DSN, writer resolution
returns a connection for the writer DSN and caches it. -/
theorem connWriter_ok (d : Delegate) (s : DrvSt) (c : Conn)
    (htx : c.tx = none)
    (hwf : ∀ w, c.writerConn = some w → w.pc.dsn = c.writerDSN)
    (hopen : d.openFails c.writerDSN = false) :
    ∃ w s1, connWriter d s c = (.ok w, s1, { c with writerConn := some w }) ∧
      w.pc.dsn = c.writerDSN := by
  obtain ⟨wd, rds, wc, rc, tx⟩ := c
  simp only at htx hwf hopen ⊢
  subst htx
  rcases wc with _ | w
  · exact ⟨⟨⟨s.conns + 1, wd⟩, "writer"⟩, { s with conns := s.conns + 1 },
      by simp [connWriter, delegateOpen, hopen], rfl⟩
  · exact ⟨w, s, by simp [connWriter], hwf w rfl⟩

/-- Reader resolution preserves the writer DSN and the active
transaction, and any writer it caches (via writer fallback) was opened
from the writer DSN. -/
theorem connReader_fields (d : Delegate) (s : DrvSt) (c : Conn) :
    (connReader d s c).2.2.writerDSN = c.writerDSN ∧
    (connReader d s c).2.2.tx = c.tx ∧
    (∀ w, (connReader d s c).2.2.writerConn = some w →
      c.writerConn = some w ∨ w.pc.dsn = c.writerDSN) := by
  rcases htx : c.tx with _ | t
  case some => simp [connReader, htx]; tauto
  case none =>
  rcases hr : c.readerConn with _ | r
  case some => simp [connReader, htx, hr]; tauto
  case none =>
  by_cases hnil : c.readerDSNs = []
  · have hf := connWriter_fields d s c
    rcases hcw : connWriter d s c with ⟨res, s1, c1⟩
    rw [hcw] at hf
    cases res <;> simp_all [connReader, htx, hr, hnil] <;> tauto
  · rcases hg : c.readerDSNs[s.next]? with _ | dsn
    · simp [connReader, roundRobinStep, htx, hr, hnil, hg]; tauto
    · by_cases ho : d.openFails dsn
      · have hf := connWriter_fields d
          { s with next := (s.next + 1) % c.readerDSNs.length } c
        rcases hcw : connWriter d
            { s with next := (s.next + 1) % c.readerDSNs.length } c with
          ⟨res, s2, c1⟩
        rw [hcw] at hf
        cases res <;>
          simp_all [connReader, roundRobinStep, delegateOpen,
            htx, hr, hnil, hg, ho] <;> tauto
      · simp [connReader, roundRobinStep, delegateOpen,
          htx, hr, hnil, hg, ho]
        tauto

/-- Reader resolution can only panic when the round-robin cursor is out
of range of a non-empty reader DSN list with no cached reader. -/
theorem connReader_no_panic (d : Delegate) (s : DrvSt) (c : Conn)
    (h : c.readerConn = none →
      c.readerDSNs = [] ∨ c.readerDSNs[s.next]? ≠ none) :
    (connReader d s c).1 ≠ Res.panics := by
  rcases htx : c.tx with _ | t
  case some => simp [connReader, htx]
  case none =>
  rcases hr : c.readerConn with _ | r
  case some => simp [connReader, htx, hr]
  case none =>
  by_cases hnil : c.readerDSNs = []
  · have hnp := connWriter_no_panic d s c
    rcases hcw : connWriter d s c with ⟨res, s1, c1⟩
    rw [hcw] at hnp
    cases res <;> simp_all [connReader, htx, hr, hnil]
  · rcases hg : c.readerDSNs[s.next]? with _ | dsn
    · rcases h hr with h1 | h1
      · exact absurd h1 hnil
      · exact absurd hg h1
    · by_cases ho : d.openFails dsn
      · have hnp := connWriter_no_panic d
          { s with next := (s.next + 1) % c.readerDSNs.length } c
        rcases hcw : connWriter d
            { s with next := (s.next + 1) % c.readerDSNs.length } c with
          ⟨res, s2, c1⟩
        rw [hcw] at hnp
        cases res <;>
          simp_all [connReader, roundRobinStep, delegateOpen,
            htx, hr, hnil, hg, ho]
      · simp [connReader, roundRobinStep, delegateOpen,
          htx, hr, hnil, hg, ho]

/-- When a transaction is not active, the writer opens fine, and the
delegate can begin on the writer endpoint (options-aware when the
capability is present, otherwise default options and a working plain
begin), the writer tail of `conn.BeginTx` produces a transaction. -/
theorem connBeginTxWriterPath_ok (d : Delegate) (s : DrvSt) (c : Conn)
    (opts : TxOptions) (htx : c.tx = none)
    (hwf : ∀ w, c.writerConn = some w → w.pc.dsn = c.writerDSN)
    (hopen : d.openFails c.writerDSN = false)
    (hbt : d.hasBeginTx c.writerDSN = true →
      d.beginTxFails c.writerDSN opts = false)
    (hpb : d.hasBeginTx c.writerDSN = false →
      opts.isolation = 0 ∧ d.beginFails c.writerDSN = false) :
    ∃ t s1 c1, connBeginTxWriterPath d s c opts = (.ok t, s1, c1) := by
  obtain ⟨w, s1, hcw, hdsn⟩ := connWriter_ok d s c htx hwf hopen
  rcases hcap : d.hasBeginTx c.writerDSN with _ | _
  · obtain ⟨hiso, hbeg⟩ := hpb hcap
    refine ⟨⟨w⟩, s1, { c with writerConn := some w, tx := some ⟨w⟩ }, ?_⟩
    simp only [connBeginTxWriterPath, hcw]
    simp only [connBeginTxAux, hdsn, hcap, hiso, connBegin, htx]
    simp [connWriter, hdsn, hbeg]
  · refine ⟨⟨w⟩, s1, { c with writerConn := some w, tx := some ⟨w⟩ }, ?_⟩
    simp only [connBeginTxWriterPath, hcw]
    simp [connBeginTxAux, hdsn, hcap, hbt hcap]

/-- C4: a read-only `BeginTx` is never refused because of a reader-path
failure: whatever the reader resolution or the reader begin did, the
call succeeds whenever the writer begin would succeed (writer opens,
and either the options-aware begin works on it, or the capability is
absent while the options are at the default isolation level and the
plain begin works).  The cursor hypothesis excludes the unrelated
out-of-range selector panic. -/
theorem beginTx_readOnly_never_refused_by_reader (d : Delegate)
    (s : DrvSt) (c : Conn) (opts : TxOptions)
    (hro : opts.readOnly = true) (htx : c.tx = none)
    (hcur : c.readerConn = none →
      c.readerDSNs = [] ∨ c.readerDSNs[s.next]? ≠ none)
    (hwf : ∀ w, c.writerConn = some w → w.pc.dsn = c.writerDSN)
    (hopen : d.openFails c.writerDSN = false)
    (hbt : d.hasBeginTx c.writerDSN = true →
      d.beginTxFails c.writerDSN opts = false)
    (hpb : d.hasBeginTx c.writerDSN = false →
      opts.isolation = 0 ∧ d.beginFails c.writerDSN = false) :
    ∃ t s1 c1, connBeginTx d s c opts = (.ok t, s1, c1) := by
  have hfr := connReader_fields d s c
  have hnp := connReader_no_panic d s c hcur
  rcases hcr : connReader d s c with ⟨res, s1, c1⟩
  rw [hcr] at hfr hnp
  have hwf1 : ∀ w, c1.writerConn = some w → w.pc.dsn = c1.writerDSN := by
    intro w hw
    rcases hfr.2.2 w hw with h1 | h1
    · rw [hfr.1]; exact hwf w h1
    · rw [hfr.1]; exact h1
  have htx1 : c1.tx = none := by rw [hfr.2.1, htx]
  have hdsn1 : c1.writerDSN = c.writerDSN := hfr.1
  cases res with
  | panics => exact absurd rfl hnp
  | fails e =>
    obtain ⟨t, s2, c2, hwp⟩ := connBeginTxWriterPath_ok d s1 c1 opts htx1
      hwf1 (by rw [hdsn1]; exact hopen) (by rw [hdsn1]; exact hbt)
      (by rw [hdsn1]; exact hpb)
    exact ⟨t, s2, c2, by simp [connBeginTx, htx, hro, hcr, hwp]⟩
  | ok r =>
    rcases haux : connBeginTxAux d c1 r opts with e | ⟨t, c2⟩
    · obtain ⟨t, s2, c2, hwp⟩ := connBeginTxWriterPath_ok d s1 c1 opts htx1
        hwf1 (by rw [hdsn1]; exact hopen) (by rw [hdsn1]; exact hbt)
        (by rw [hdsn1]; exact hpb)
      exact ⟨t, s2, c2, by simp [connBeginTx, htx, hro, hcr, haux, hwp]⟩
    · exact ⟨t, s1, c2, by simp [connBeginTx, htx, hro, hcr, haux]⟩

/-- Witness for C4, scenario B of the spec: compound address
`"w;r1;r2"`, a read-only begin where the reader endpoints lack the
options-aware begin capability and only the writer has it — the call
returns a transaction with no error. -/
theorem beginTx_readOnly_never_refused_witness :
    ∃ t s1 c1,
      connBeginTx dWriterBtx st0 (freshConn "w" ["r1", "r2"]) ⟨0, true⟩ =
        (.ok t, s1, c1) :=
  beginTx_readOnly_never_refused_by_reader dWriterBtx st0
    (freshConn "w" ["r1", "r2"]) ⟨0, true⟩ rfl rfl
    (fun _ => Or.inr (by decide)) (fun w h => by cases h) rfl
    (fun _ => rfl) (fun h => by cases h)

/-- Outcomes of the writer tail of `conn.BeginTx` when the writer's
connection type lacks the options-aware begin capability: default
isolation falls back to the plain begin (succeeding or failing with the
plain begin's error), non-default isolation surfaces
`ErrConnBeginTxUnsupported`. -/
theorem connBeginTxWriterPath_nocap (d : Delegate) (s : DrvSt) (c : Conn)
    (opts : TxOptions) (htx : c.tx = none)
    (hwf : ∀ w, c.writerConn = some w → w.pc.dsn = c.writerDSN)
    (hopen : d.openFails c.writerDSN = false)
    (hcap : d.hasBeginTx c.writerDSN = false) :
    (opts.isolation = 0 → d.beginFails c.writerDSN = false →
      ∃ t s1 c1, connBeginTxWriterPath d s c opts = (.ok t, s1, c1)) ∧
    (opts.isolation = 0 → d.beginFails c.writerDSN = true →
      ∃ s1 c1, connBeginTxWriterPath d s c opts =
        (.fails (.delegateBegin c.writerDSN), s1, c1)) ∧
    (opts.isolation ≠ 0 →
      ∃ s1 c1, connBeginTxWriterPath d s c opts =
        (.fails .beginTxUnsupported, s1, c1)) := by
  obtain ⟨w, s1, hcw, hdsn⟩ := connWriter_ok d s c htx hwf hopen
  refine ⟨fun hiso hbeg => ?_, fun hiso hbeg => ?_, fun hiso => ?_⟩
  · refine ⟨⟨w⟩, s1, { c with writerConn := some w, tx := some ⟨w⟩ }, ?_⟩
    simp only [connBeginTxWriterPath, hcw]
    simp only [connBeginTxAux, hdsn, hcap, hiso, connBegin, htx]
    simp [connWriter, hdsn, hbeg]
  · refine ⟨s1, { c with writerConn := some w }, ?_⟩
    simp only [connBeginTxWriterPath, hcw]
    simp only [connBeginTxAux, hdsn, hcap, hiso, connBegin, htx]
    simp [connWriter, hdsn, hbeg]
  · refine ⟨s1, { c with writerConn := some w }, ?_⟩
    simp only [connBeginTxWriterPath, hcw]
    simp [connBeginTxAux, hdsn, hcap, hiso]

/-- C5 counterexample: writer connection type without the options-aware
begin capability, a read-only request at the default isolation level —
the claim says this must fail with the begin-with-options-unsupported
error, but the code falls back to a plain begin on the writer and
returns a transaction with no error (exactly what the repository's
`TestBeginTxFallback` expects for its read-only case). -/
theorem beginTx_readOnly_nocap_succeeds :
    connBeginTx dPlain st0 (freshConn "w" []) ⟨0, true⟩ =
      (Res.ok ⟨⟨⟨1, "w"⟩, "writer"⟩⟩, ⟨1, 0, 0⟩,
        ⟨"w", [], some ⟨⟨1, "w"⟩, "writer"⟩, some ⟨⟨1, "w"⟩, "writer"⟩,
         some ⟨⟨⟨1, "w"⟩, "writer"⟩⟩⟩) ∧
    (connBeginTx dPlain st0 (freshConn "w" []) ⟨0, true⟩).1 ≠
      Res.fails Err.beginTxUnsupported := by
  refine ⟨rfl, ?_⟩
  intro h
  rw [show (connBeginTx dPlain st0 (freshConn "w" []) ⟨0, true⟩).1 =
    Res.ok ⟨⟨⟨1, "w"⟩, "writer"⟩⟩ from rfl] at h
  exact Res.noConfusion h

/-- C5 amended: when every connection type the call can reach lacks the
options-aware begin capability, `conn.BeginTx` falls back to the plain
options-less begin on the writer if and only if the isolation level is
the default — regardless of the read-only flag — and fails with
`ErrConnBeginTxUnsupported` exactly when the isolation level is
non-default. -/
theorem beginTx_nocap_fallback_iff_default_isolation (d : Delegate)
    (s : DrvSt) (c : Conn) (opts : TxOptions) (htx : c.tx = none)
    (hcur : c.readerConn = none →
      c.readerDSNs = [] ∨ c.readerDSNs[s.next]? ≠ none)
    (hwf : ∀ w, c.writerConn = some w → w.pc.dsn = c.writerDSN)
    (hopen : d.openFails c.writerDSN = false)
    (hnocap : ∀ x, d.hasBeginTx x = false) :
    (opts.isolation = 0 → d.beginFails c.writerDSN = false →
      ∃ t s1 c1, connBeginTx d s c opts = (.ok t, s1, c1)) ∧
    (opts.isolation = 0 → d.beginFails c.writerDSN = true →
      ∃ s1 c1, connBeginTx d s c opts =
        (.fails (.delegateBegin c.writerDSN), s1, c1)) ∧
    (opts.isolation ≠ 0 →
      ∃ s1 c1, connBeginTx d s c opts =
        (.fails .beginTxUnsupported, s1, c1)) := by
  rcases hro : opts.readOnly with _ | _
  · have hred : connBeginTx d s c opts = connBeginTxWriterPath d s c opts := by
      simp [connBeginTx, htx, hro]
    rw [hred]
    exact connBeginTxWriterPath_nocap d s c opts htx hwf hopen
      (hnocap c.writerDSN)
  · have hfr := connReader_fields d s c
    have hnp := connReader_no_panic d s c hcur
    rcases hcr : connReader d s c with ⟨res, s1, c1⟩
    rw [hcr] at hfr hnp
    have hwf1 : ∀ w, c1.writerConn = some w → w.pc.dsn = c1.writerDSN := by
      intro w hw
      rcases hfr.2.2 w hw with h1 | h1
      · rw [hfr.1]; exact hwf w h1
      · rw [hfr.1]; exact h1
    have htx1 : c1.tx = none := by rw [hfr.2.1, htx]
    have hdsn1 : c1.writerDSN = c.writerDSN := hfr.1
    have hmain := connBeginTxWriterPath_nocap d s1 c1 opts htx1 hwf1
      (by rw [hdsn1]; exact hopen) (by rw [hdsn1]; exact hnocap c.writerDSN)
    rw [hdsn1] at hmain
    cases res with
    | panics => exact absurd rfl hnp
    | fails e =>
      have hred : connBeginTx d s c opts = connBeginTxWriterPath d s1 c1 opts := by
        simp [connBeginTx, htx, hro, hcr]
      rw [hred]; exact hmain
    | ok r =>
      have haux : connBeginTxAux d c1 r opts = .error .beginTxUnsupported := by
        simp [connBeginTxAux, hnocap r.pc.dsn]
      have hred : connBeginTx d s c opts = connBeginTxWriterPath d s1 c1 opts := by
        simp [connBeginTx, htx, hro, hcr, haux]
      rw [hred]; exact hmain

/-- Witness for the amended C5: read-only request at non-default
isolation with no begin-with-options capability anywhere fails with
`ErrConnBeginTxUnsupported` (the repository's `TestBeginTxFallback`
custom-level case), while the same connection at default isolation gets
a transaction. -/
theorem beginTx_nocap_fallback_witness :
    (∃ s1 c1, connBeginTx dPlain st0 (freshConn "w" ["r1"]) ⟨5, true⟩ =
      (.fails .beginTxUnsupported, s1, c1)) ∧
    (∃ t s1 c1, connBeginTx dPlain st0 (freshConn "w" ["r1"]) ⟨0, true⟩ =
      (.ok t, s1, c1)) :=
  ⟨(beginTx_nocap_fallback_iff_default_isolation dPlain st0
      (freshConn "w" ["r1"]) ⟨5, true⟩ rfl
      (fun _ => Or.inr (by decide)) (fun w h => by cases h) rfl
      (fun _ => rfl)).2.2 (by decide),
   (beginTx_nocap_fallback_iff_default_isolation dPlain st0
      (freshConn "w" ["r1"]) ⟨0, true⟩ rfl
      (fun _ => Or.inr (by decide)) (fun w h => by cases h) rfl
      (fun _ => rfl)).1 rfl rfl⟩

/-- C6: on a fresh transaction-free connection with a distinct reader,
a prepared statement first used for a query binds on the reader, a
following exec creates a second, independent binding prepared on the
writer; its close then closes both physical bindings exactly once,
returns nil exactly when both closes succeed and otherwise one
aggregate error collecting the failures; closing a never-bound
statement returns nil. -/
theorem stmt_query_then_exec_two_bindings (d : Delegate) (s : DrvSt)
    (wd : String) (rds : List String) (q : String) (rdsn : String)
    (hget : rds[s.next]? = some rdsn)
    (how : d.openFails wd = false) (hor : d.openFails rdsn = false)
    (hpw : d.prepareFails wd = false) (hpr : d.prepareFails rdsn = false) :
    ∃ r w ps1 ps2 s1 s2 c1 c2 st1 st2,
      stmtQuery d s (freshConn wd rds) (newStmt q) = (.ok ps1, s1, c1, st1) ∧
      stmtExec d s1 c1 st1 = (.ok ps2, s2, c2, st2) ∧
      st1.proxiedStmts = [(r, ps1)] ∧
      st2.proxiedStmts = [(r, ps1), (w, ps2)] ∧
      r ≠ w ∧ ps1 ≠ ps2 ∧
      r.pc.dsn = rdsn ∧ w.pc.dsn = wd ∧
      r.role = "reader" ∧ w.role = "writer" ∧
      (stmtCloseOp d st2).2 = [ps1, ps2] ∧
      ((stmtCloseOp d st2).1 = .ok () ↔
        d.stmtCloseFails ps1 = false ∧ d.stmtCloseFails ps2 = false) ∧
      ((stmtCloseOp d st2).1 = .ok () ∨
        (stmtCloseOp d st2).1 = .error (.stmtCloseAgg
          ([ps1, ps2].filter (fun i => d.stmtCloseFails i)))) ∧
      stmtCloseOp d (newStmt q) = (.ok (), []) := by
  have hne : rds ≠ [] := by
    intro h; rw [h] at hget; simp at hget
  have hrw : (⟨⟨s.conns + 1, rdsn⟩, "reader"⟩ : ProxiedConn) ≠
      ⟨⟨s.conns + 2, wd⟩, "writer"⟩ := by simp
  refine ⟨⟨⟨s.conns + 1, rdsn⟩, "reader"⟩, ⟨⟨s.conns + 2, wd⟩, "writer"⟩,
    s.stmts + 1, s.stmts + 2,
    ⟨s.conns + 1, s.stmts + 1, (s.next + 1) % rds.length⟩,
    ⟨s.conns + 2, s.stmts + 2, (s.next + 1) % rds.length⟩,
    ⟨wd, rds, none, some ⟨⟨s.conns + 1, rdsn⟩, "reader"⟩, none⟩,
    ⟨wd, rds, some ⟨⟨s.conns + 2, wd⟩, "writer"⟩,
      some ⟨⟨s.conns + 1, rdsn⟩, "reader"⟩, none⟩,
    ⟨q, [(⟨⟨s.conns + 1, rdsn⟩, "reader"⟩, s.stmts + 1)]⟩,
    ⟨q, [(⟨⟨s.conns + 1, rdsn⟩, "reader"⟩, s.stmts + 1),
         (⟨⟨s.conns + 2, wd⟩, "writer"⟩, s.stmts + 2)]⟩,
    ?_, ?_, rfl, rfl, hrw, by omega, rfl, rfl, rfl, rfl, ?_, ?_, ?_, rfl⟩
  · simp [stmtQuery, connReader, freshConn, roundRobinStep, hget,
      delegateOpen, hor, stmtPrepared, newStmt, lookupBinding, hpr, hne]
  · simp [stmtExec, connWriter, delegateOpen, how, stmtPrepared,
      lookupBinding, hpw, hrw]
  · simp [stmtCloseOp]
  · by_cases h1 : d.stmtCloseFails (s.stmts + 1) <;>
      by_cases h2 : d.stmtCloseFails (s.stmts + 2) <;>
        simp [stmtCloseOp, h1, h2]
  · by_cases h1 : d.stmtCloseFails (s.stmts + 1) <;>
      by_cases h2 : d.stmtCloseFails (s.stmts + 2) <;>
        simp [stmtCloseOp, h1, h2]

/-- Witness for C6 at the concrete address `"w;r1"` with a
failure-free delegate. -/
theorem stmt_query_then_exec_two_bindings_witness :
    ∃ r w ps1 ps2 s1 s2 c1 c2 st1 st2,
      stmtQuery dPlain st0 (freshConn "w" ["r1"]) (newStmt "SELECT") =
        (.ok ps1, s1, c1, st1) ∧
      stmtExec dPlain s1 c1 st1 = (.ok ps2, s2, c2, st2) ∧
      st1.proxiedStmts = [(r, ps1)] ∧
      st2.proxiedStmts = [(r, ps1), (w, ps2)] ∧
      r ≠ w ∧ ps1 ≠ ps2 ∧
      r.pc.dsn = "r1" ∧ w.pc.dsn = "w" ∧
      r.role = "reader" ∧ w.role = "writer" ∧
      (stmtCloseOp dPlain st2).2 = [ps1, ps2] ∧
      ((stmtCloseOp dPlain st2).1 = .ok () ↔
        dPlain.stmtCloseFails ps1 = false ∧
        dPlain.stmtCloseFails ps2 = false) ∧
      ((stmtCloseOp dPlain st2).1 = .ok () ∨
        (stmtCloseOp dPlain st2).1 = .error (.stmtCloseAgg
          ([ps1, ps2].filter (fun i => dPlain.stmtCloseFails i)))) ∧
      stmtCloseOp dPlain (newStmt "SELECT") = (.ok (), []) :=
  stmt_query_then_exec_two_bindings dPlain st0 "w" ["r1"] "SELECT" "r1"
    rfl rfl rfl rfl rfl

/-- Full characterization of iterating the round-robin selector with
an in-range cursor and no open failures: the i-th selection opens a
fresh connection to the DSN at position `(next + i) % n`, and the final
state has advanced the cursor and the connection counter. -/
theorem rrRun_spec (d : Delegate) (dsns : List String)
    (hopen : ∀ x ∈ dsns, d.openFails x = false) :
    ∀ k s, s.next < dsns.length →
      (rrRun d dsns k s).1 =
        (List.range k).map (fun i =>
          Res.ok ⟨s.conns + i + 1,
            (dsns[(s.next + i) % dsns.length]?).getD ""⟩) ∧
      (rrRun d dsns k s).2 =
        ⟨s.conns + k, s.stmts, (s.next + k) % dsns.length⟩ := by
  intro k
  induction k with
  | zero =>
    intro s hs
    exact ⟨by simp [rrRun], by simp [rrRun, Nat.mod_eq_of_lt hs]⟩
  | succ k ih =>
    intro s hs
    have hn : 0 < dsns.length := by omega
    rcases h0 : dsns[s.next]? with _ | dsn0
    · rw [List.getElem?_eq_none_iff] at h0; omega
    have hmem : dsn0 ∈ dsns := List.getElem?_mem h0
    have hlt1 : (s.next + 1) % dsns.length < dsns.length := Nat.mod_lt _ hn
    have hih := ih ⟨s.conns + 1, s.stmts, (s.next + 1) % dsns.length⟩ hlt1
    have hstep : rrRun d dsns (k + 1) s =
        (Res.ok ⟨s.conns + 1, dsn0⟩ ::
          (rrRun d dsns k ⟨s.conns + 1, s.stmts,
            (s.next + 1) % dsns.length⟩).1,
         (rrRun d dsns k ⟨s.conns + 1, s.stmts,
            (s.next + 1) % dsns.length⟩).2) := by
      simp [rrRun, roundRobinStep, h0, delegateOpen, hopen _ hmem]
    constructor
    · rw [hstep]
      rw [hih.1]
      rw [List.range_succ_eq_map, List.map_cons, List.map_map]
      simp only [List.cons.injEq]
      refine ⟨?_, ?_⟩
      · simp [Nat.mod_eq_of_lt hs, h0]
      · apply List.map_congr_left
        intro i _
        have h1 : s.conns + 1 + i + 1 = s.conns + (i + 1) + 1 := by omega
        have h2 : ((s.next + 1) % dsns.length + i) % dsns.length =
            (s.next + (i + 1)) % dsns.length := by
          rw [Nat.mod_add_mod]
          congr 1
          omega
        simp only [Function.comp_apply, h1, h2]
    · rw [hstep]
      simp only [hih.2]
      have h2 : ((s.next + 1) % dsns.length + k) % dsns.length =
          (s.next + (k + 1)) % dsns.length := by
        rw [Nat.mod_add_mod]
        congr 1
        omega
      simp only [h2]
      congr 1
      omega

/-- C8: round-robin fairness of the default reader selection policy
over a shared, never-reset cursor.  With N ≥ 1 readers, an in-range
cursor and no open failures: the k-th of the next N selections opens
the reader at list position `(next+k) % N` (cyclic in list order), the
N positions selected are pairwise distinct (no reader position repeats
before every reader was visited), every reader position is selected;
with exactly one reader every selection, for any horizon, returns that
reader; and two successive reader resolutions on fresh virtual
connections sharing the driver state continue one rotation. -/
theorem roundRobin_cyclic_fair (d : Delegate) (dsns : List String)
    (s : DrvSt) (hne : dsns ≠ []) (hcur : s.next < dsns.length)
    (hopen : ∀ x ∈ dsns, d.openFails x = false) :
    (∀ k, k < dsns.length →
      ((rrRun d dsns dsns.length s).1)[k]? =
        some (.ok ⟨s.conns + k + 1,
          (dsns[(s.next + k) % dsns.length]?).getD ""⟩)) ∧
    (((List.range dsns.length).map
        (fun k => (s.next + k) % dsns.length)).Nodup) ∧
    (∀ j, j < dsns.length → ∃ k, k < dsns.length ∧
      ((rrRun d dsns dsns.length s).1)[k]? =
        some (.ok ⟨s.conns + k + 1, (dsns[j]?).getD ""⟩)) ∧
    (dsns.length = 1 → ∀ m k, k < m →
      ((rrRun d dsns m s).1)[k]? =
        some (.ok ⟨s.conns + k + 1, (dsns[0]?).getD ""⟩)) ∧
    (∀ w1 w2 : String,
      (connReader d s (freshConn w1 dsns)).1 =
        .ok ⟨⟨s.conns + 1, (dsns[s.next]?).getD ""⟩, "reader"⟩ ∧
      (connReader d ((connReader d s (freshConn w1 dsns)).2.1)
          (freshConn w2 dsns)).1 =
        .ok ⟨⟨s.conns + 2, (dsns[(s.next + 1) % dsns.length]?).getD ""⟩,
          "reader"⟩) := by
  have hn : 0 < dsns.length := List.length_pos.mpr hne
  have hspec := rrRun_spec d dsns hopen dsns.length s hcur
  have hpick : ∀ k, k < dsns.length →
      ((rrRun d dsns dsns.length s).1)[k]? =
        some (.ok ⟨s.conns + k + 1,
          (dsns[(s.next + k) % dsns.length]?).getD ""⟩) := by
    intro k hk
    rw [hspec.1]
    simp [List.getElem?_map, List.getElem?_range hk]
  refine ⟨hpick, ?_, ?_, ?_, ?_⟩
  · apply List.Nodup.map_on ?_ (List.nodup_range _)
    intro x hx y hy hxy
    rw [List.mem_range] at hx hy
    have hx2 : x % dsns.length = y % dsns.length :=
      Nat.ModEq.add_left_cancel' s.next hxy
    rw [Nat.mod_eq_of_lt hx, Nat.mod_eq_of_lt hy] at hx2
    exact hx2
  · intro j hj
    refine ⟨(j + dsns.length - s.next) % dsns.length, Nat.mod_lt _ hn, ?_⟩
    have hk : (s.next + (j + dsns.length - s.next) % dsns.length) %
        dsns.length = j := by
      rw [Nat.add_mod_mod]
      rw [Nat.add_sub_cancel' (by omega : s.next ≤ j + dsns.length)]
      rw [Nat.add_mod_right]
      exact Nat.mod_eq_of_lt hj
    rw [hpick _ (Nat.mod_lt _ hn), hk]
  · intro h1 m k hk
    have hs1 : s.next < dsns.length := hcur
    have hm := rrRun_spec d dsns hopen m s hs1
    rw [hm.1]
    have : (s.next + k) % dsns.length = 0 := by
      rw [h1]; exact Nat.mod_one _
    simp [List.getElem?_map, List.getElem?_range hk, this]
  · intro w1 w2
    rcases h0 : dsns[s.next]? with _ | dsn0
    · rw [List.getElem?_eq_none_iff] at h0; omega
    have hmem : dsn0 ∈ dsns := List.getElem?_mem h0
    have hr1 : connReader d s (freshConn w1 dsns) =
        (.ok ⟨⟨s.conns + 1, dsn0⟩, "reader"⟩,
         ⟨s.conns + 1, s.stmts, (s.next + 1) % dsns.length⟩,
         ⟨w1, dsns, none,
          some ⟨⟨s.conns + 1, dsn0⟩, "reader"⟩, none⟩) := by
      simp [connReader, freshConn, roundRobinStep, h0, delegateOpen,
        hopen _ hmem, hne]
    have hlt1 : (s.next + 1) % dsns.length < dsns.length := Nat.mod_lt _ hn
    rcases h1 : dsns[(s.next + 1) % dsns.length]? with _ | dsn1
    · rw [List.getElem?_eq_none_iff] at h1; omega
    have hmem1 : dsn1 ∈ dsns := List.getElem?_mem h1
    refine ⟨by rw [hr1]; simp [h0], ?_⟩
    rw [hr1]
    simp [connReader, freshConn, roundRobinStep, h1, delegateOpen,
      hopen _ hmem1, hne]

/-- Witness for C8 with two readers and the cursor at zero: both reader
positions are visited within the first two selections. -/
theorem roundRobin_cyclic_fair_witness :
    (∃ k, k < (["r1", "r2"] : List String).length ∧
      ((rrRun dPlain ["r1", "r2"] 2 st0).1)[k]? =
        some (.ok ⟨st0.conns + k + 1,
          ((["r1", "r2"] : List String)[0]?).getD ""⟩)) ∧
    (∃ k, k < (["r1", "r2"] : List String).length ∧
      ((rrRun dPlain ["r1", "r2"] 2 st0).1)[k]? =
        some (.ok ⟨st0.conns + k + 1,
          ((["r1", "r2"] : List String)[1]?).getD ""⟩)) :=
  ⟨(roundRobin_cyclic_fair dPlain ["r1", "r2"] st0 (by decide) (by decide)
      (by decide)).2.2.1 0 (by decide),
   (roundRobin_cyclic_fair dPlain ["r1", "r2"] st0 (by decide) (by decide)
      (by decide)).2.2.1 1 (by decide)⟩

/-- If `conn.Begin` returns an error from a transaction-free
connection, the connection's transaction field is still unset. -/
theorem connBegin_fails_keeps_tx_none (d : Delegate) (s : DrvSt)
    (c : Conn) (htx : c.tx = none) :
    ∀ e s1 c1, connBegin d s c = (.fails e, s1, c1) → c1.tx = none := by
  intro e s1 c1 h
  have hf := connWriter_fields d s c
  rcases hcw : connWriter d s c with ⟨res, s2, c2⟩
  rw [hcw] at hf
  have htx2 : c2.tx = none := by rw [hf.2.2.2.1, htx]
  simp only [connBegin, htx, hcw] at h
  cases res with
  | panics => simp [Prod.mk.injEq] at h
  | fails e2 =>
    simp only [Prod.mk.injEq, Res.fails.injEq] at h
    rw [← h.2.2]; exact htx2
  | ok w =>
    by_cases hb : d.beginFails w.pc.dsn
    · simp only [hb, if_true, Prod.mk.injEq, Res.fails.injEq] at h
      rw [← h.2.2]; exact htx2
    · simp [hb, Prod.mk.injEq] at h

/-- If the writer tail of `conn.BeginTx` returns an error from a
transaction-free connection, the transaction field is still unset. -/
theorem connBeginTxWriterPath_fails_keeps_tx_none (d : Delegate)
    (s : DrvSt) (c : Conn) (opts : TxOptions) (htx : c.tx = none) :
    ∀ e s1 c1, connBeginTxWriterPath d s c opts = (.fails e, s1, c1) →
      c1.tx = none := by
  intro e s1 c1 h
  have hf := connWriter_fields d s c
  rcases hcw : connWriter d s c with ⟨res, s2, c2⟩
  rw [hcw] at hf
  have htx2 : c2.tx = none := by rw [hf.2.2.2.1, htx]
  simp only [connBeginTxWriterPath, hcw] at h
  cases res with
  | panics => simp [Prod.mk.injEq] at h
  | fails e2 =>
    simp only [Prod.mk.injEq, Res.fails.injEq] at h
    rw [← h.2.2]; exact htx2
  | ok w =>
    rcases haux : connBeginTxAux d c2 w opts with e2 | ⟨t, c3⟩
    · simp only [haux] at h
      by_cases hcond : e2 = Err.beginTxUnsupported ∧ opts.isolation = 0
      · rw [if_pos hcond] at h
        exact connBegin_fails_keeps_tx_none d s2 c2 htx2 e s1 c1 h
      · rw [if_neg hcond] at h
        simp only [Prod.mk.injEq, Res.fails.injEq] at h
        rw [← h.2.2]; exact htx2
    · simp [haux, Prod.mk.injEq] at h

/-- C10: whenever `Begin` or `BeginTx` on a transaction-free connection
returns an error, the connection's transaction field is left unset, so
the failed begin never causes later begins to be rejected as
already-in-transaction. -/
theorem begin_error_leaves_tx_unset (d : Delegate) (s : DrvSt) (c : Conn)
    (opts : TxOptions) (htx : c.tx = none) :
    (∀ e s1 c1, connBegin d s c = (.fails e, s1, c1) → c1.tx = none) ∧
    (∀ e s1 c1, connBeginTx d s c opts = (.fails e, s1, c1) →
      c1.tx = none) := by
  refine ⟨connBegin_fails_keeps_tx_none d s c htx, ?_⟩
  intro e s1 c1 h
  rcases hro : opts.readOnly with _ | _
  · simp only [connBeginTx, htx, hro, Bool.false_eq_true, if_false] at h
    exact connBeginTxWriterPath_fails_keeps_tx_none d s c opts htx e s1 c1 h
  · have hfr := connReader_fields d s c
    rcases hcr : connReader d s c with ⟨res, s2, c2⟩
    rw [hcr] at hfr
    have htx2 : c2.tx = none := by rw [hfr.2.1, htx]
    simp only [connBeginTx, htx, hro, if_true, hcr] at h
    cases res with
    | panics => simp [Prod.mk.injEq] at h
    | fails e2 =>
      exact connBeginTxWriterPath_fails_keeps_tx_none d s2 c2 opts htx2
        e s1 c1 h
    | ok r =>
      rcases haux : connBeginTxAux d c2 r opts with e2 | ⟨t, c3⟩
      · simp only [haux] at h
        exact connBeginTxWriterPath_fails_keeps_tx_none d s2 c2 opts htx2
          e s1 c1 h
      · simp [haux, Prod.mk.injEq] at h

/-- Witness for C10: a failed `BeginTx` (non-default isolation with no
begin-with-options capability) leaves the transaction field unset. -/
theorem begin_error_leaves_tx_unset_witness :
    (connBeginTx dPlain st0 (freshConn "w" ["r1"]) ⟨5, false⟩).2.2.tx =
      none := by
  have h := (begin_error_leaves_tx_unset dPlain st0 (freshConn "w" ["r1"])
    ⟨5, false⟩ rfl).2
  rcases heq : connBeginTx dPlain st0 (freshConn "w" ["r1"]) ⟨5, false⟩ with
    ⟨res, s1, c1⟩
  have : res = .fails .beginTxUnsupported := by
    rw [show connBeginTx dPlain st0 (freshConn "w" ["r1"]) ⟨5, false⟩ =
      ((.fails .beginTxUnsupported : Res Tx), (⟨1, 0, 0⟩ : DrvSt),
        (⟨"w", ["r1"], some ⟨⟨1, "w"⟩, "writer"⟩, none, none⟩ : Conn))
      from rfl] at heq
    simp [Prod.mk.injEq] at heq
    exact heq.1.symm
  subst this
  simp only
  exact h _ _ _ heq

/-- C7: `conn.Close` attempts to close each distinct physical
connection exactly once (an aliased reader is not closed twice); which
closes are attempted does not depend on which closes fail (so the
reader close is attempted even when the writer close failed); the
result is nil exactly when every attempted close succeeded, and
otherwise the aggregate `ConnCloseError` collecting exactly the failed
attempts.  The hypothesis says distinct cached wrappers carry distinct
physical ids, which holds for every reachable connection since the
delegate allocates fresh ids. -/
theorem connClose_closes_each_once (d : Delegate) (c : Conn)
    (hids : ∀ w r, c.writerConn = some w → c.readerConn = some r →
      w.pc.id = r.pc.id → w = r) :
    ((connClose d c).2.Nodup) ∧
    (∀ w, c.writerConn = some w → w.pc.id ∈ (connClose d c).2) ∧
    (∀ r, c.readerConn = some r → c.writerConn = some r →
      (connClose d c).2 = [r.pc.id]) ∧
    (∀ r, c.readerConn = some r → c.writerConn ≠ some r →
      r.pc.id ∈ (connClose d c).2) ∧
    (∀ d2 : Delegate, (connClose d2 c).2 = (connClose d c).2) ∧
    ((connClose d c).1 = .ok () ↔
      ∀ i ∈ (connClose d c).2, d.connCloseFails i = false) ∧
    ((connClose d c).1 = .ok () ∨
      (connClose d c).1 =
        .error (.connCloseAgg
          ((connClose d c).2.filter (fun i => d.connCloseFails i)))) := by
  rcases hw : c.writerConn with _ | w <;> rcases hr : c.readerConn with _ | r
  · simp [connClose, hw, hr]
  · simp only [connClose, hw, hr]
    by_cases hf : d.connCloseFails r.pc.id <;> simp [hf, hw]
  · simp only [connClose, hw, hr]
    by_cases hf : d.connCloseFails w.pc.id <;> simp [hf, hr]
  · by_cases hwr : w = r
    · subst hwr
      simp only [connClose, hw, hr, if_pos rfl]
      by_cases hf : d.connCloseFails w.pc.id <;> simp [hf, hw, hr]
    · have hid : w.pc.id ≠ r.pc.id := fun h => hwr (hids w r hw hr h)
      have hne : ¬ (some w = some r) := by simp [hwr]
      simp only [connClose, hw, hr, if_neg hne]
      by_cases hfw : d.connCloseFails w.pc.id <;>
        by_cases hfr : d.connCloseFails r.pc.id <;>
          simp [hfw, hfr, hid, hid.symm, hwr]

/-- Witness for C7: distinct writer and reader connections, writer
close failing, reader close succeeding. -/
theorem connClose_closes_each_once_witness :
    ((connClose
        ⟨fun _ => false, fun _ => false, fun _ => false, fun _ _ => false,
         fun _ => false, fun i => i = 1, fun _ => false⟩
        ⟨"w", ["r1"], some ⟨⟨1, "w"⟩, "writer"⟩, some ⟨⟨2, "r1"⟩, "reader"⟩,
         none⟩).2.Nodup) ∧
    ((connClose
        ⟨fun _ => false, fun _ => false, fun _ => false, fun _ _ => false,
         fun _ => false, fun i => i = 1, fun _ => false⟩
        ⟨"w", ["r1"], some ⟨⟨1, "w"⟩, "writer"⟩, some ⟨⟨2, "r1"⟩, "reader"⟩,
         none⟩).2 = [1, 2]) ∧
    ((connClose
        ⟨fun _ => false, fun _ => false, fun _ => false, fun _ _ => false,
         fun _ => false, fun i => i = 1, fun _ => false⟩
        ⟨"w", ["r1"], some ⟨⟨1, "w"⟩, "writer"⟩, some ⟨⟨2, "r1"⟩, "reader"⟩,
         none⟩).1 = .error (.connCloseAgg [1])) := by
  refine ⟨(connClose_closes_each_once _ _ ?_).1, rfl, rfl⟩
  intro w r hw hr h
  simp only [Option.some.injEq] at hw hr
  subst hw; subst hr; simp at h

/-- Witness for C3 at a concrete pinned connection. -/
theorem begin_fails_while_in_tx_witness :
    connBegin dPlain st0 cInTx = (.fails .badConn, st0, cInTx) ∧
    connBeginTx dPlain st0 cInTx ⟨0, false⟩ = (.fails .badConn, st0, cInTx) :=
  begin_fails_while_in_tx dPlain st0 cInTx ⟨pinnedPC⟩ ⟨0, false⟩ rfl

/-- Running a schedule splits along concatenation. -/
theorem relRun_append (l1 l2 : List RelAct) :
    ∀ st, relRun st (l1 ++ l2) = relRun (relRun st l1) l2 := by
  induction l1 with
  | nil => intro st; rfl
  | cons a rest ih =>
    intro st
    simp only [List.cons_append, relRun]
    exact ih (relStep st a)

/-- The release invariant respects equivalence of the sent flag. -/
theorem RelInv.congr {sent sent2 : Prop} {st : RelSt}
    (h : sent ↔ sent2) (hi : RelInv sent st) : RelInv sent2 st :=
  ⟨hi.1, hi.2.1, hi.2.2.1, fun hn => hi.2.2.2.1 (fun hs => hn (h.mp hs)),
   fun hs => hi.2.2.2.2 (h.mpr hs)⟩

/-- A non-blocking send establishes the invariant with the sent flag. -/
theorem relSend_inv {sent : Prop} {st : RelSt} (hi : RelInv sent st) :
    RelInv True (relSend st) := by
  unfold relSend
  by_cases hs : st.slot = true
  · rw [if_pos hs]
    exact ⟨hi.1, hi.2.1, hi.2.2.1, fun hn => absurd trivial hn,
      fun _ _ => hs⟩
  · rw [if_neg hs]
    exact ⟨hi.1, hi.2.1, hi.2.2.1, fun hn => absurd trivial hn,
      fun _ _ => rfl⟩

/-- A listener delivery step preserves the invariant. -/
theorem relDeliver_inv {sent : Prop} {st : RelSt} (hi : RelInv sent st) :
    RelInv sent (relDeliver st) := by
  unfold relDeliver
  by_cases he : st.listener && st.slot
  · rw [if_pos he]
    simp only [Bool.and_eq_true] at he
    have hrel : st.releases = 0 := hi.2.1.mp he.1
    refine ⟨by simp [hrel], by simp, by simp, fun hn => ?_, fun _ h => by simp at h⟩
    · exact absurd (hi.2.2.2.1 hn).1 (by simp [he.2])
  · rw [if_neg he]
    exact hi

/-- Running any schedule from a state satisfying the invariant lands in
a state satisfying it, with the sent flag grown by the schedule's
signals. -/
theorem relRun_inv (tr : List RelAct) :
    ∀ (sent : Prop) (st : RelSt), RelInv sent st →
      RelInv (sent ∨ 1 ≤ sendCount tr) (relRun st tr) := by
  induction tr with
  | nil =>
    intro sent st hi
    exact hi.congr (by simp [sendCount])
  | cons a rest ih =>
    intro sent st hi
    cases a with
    | send =>
      have h1 := ih True (relSend st) (relSend_inv hi)
      refine (h1.congr ?_)
      simp [sendCount]
    | deliver =>
      have h1 := ih sent (relDeliver st) (relDeliver_inv hi)
      refine (h1.congr ?_)
      simp [sendCount]

/-- The initial protocol state satisfies the invariant with no signal
sent. -/
theorem relInit_inv : RelInv False relInit := by
  refine ⟨by simp [relInit], by simp [relInit], by simp [relInit],
    fun _ => ⟨rfl, rfl⟩, fun h => absurd h not_false⟩

/-- C9 amended: in every interleaving of commit/rollback signals and
the listener, the pin is released at most once (duplicate signals are
dropped by the single-slot non-blocking send); no release happens
without a signal; and once at least one signal was sent and the
scheduler runs the listener, the pin has been released exactly once and
the transaction field is clear — at which point a `Begin` on the
cleared connection succeeds whenever the writer is available.  (The
original claim's "immediately succeeds after commit returns" is not
guaranteed: see the counterexample schedule.) -/
theorem release_exactly_once (tr : List RelAct) :
    (relRun relInit tr).releases ≤ 1 ∧
    (sendCount tr = 0 → (relRun relInit tr).releases = 0) ∧
    (1 ≤ sendCount tr →
      (relRun relInit (tr ++ [RelAct.deliver])).releases = 1 ∧
      (relRun relInit (tr ++ [RelAct.deliver])).txSet = false) ∧
    (∀ d s c, c.tx = none →
      (∀ w, c.writerConn = some w → w.pc.dsn = c.writerDSN) →
      d.openFails c.writerDSN = false → d.beginFails c.writerDSN = false →
      ∃ t s1 c1, connBegin d s c = (.ok t, s1, c1)) := by
  have hinv := relRun_inv tr False relInit relInit_inv
  have hinv2 : RelInv (1 ≤ sendCount tr) (relRun relInit tr) :=
    hinv.congr (by tauto)
  refine ⟨hinv2.1, ?_, ?_, ?_⟩
  · intro h0
    exact (hinv2.2.2.2.1 (by omega)).2
  · intro hsent
    rw [relRun_append]
    have hst := hinv2
    set st1 := relRun relInit tr with hdef
    by_cases hl : st1.listener = true
    · have hslot : st1.slot = true := hst.2.2.2.2 hsent hl
      have hrel : st1.releases = 0 := hst.2.1.mp hl
      have : relRun st1 [RelAct.deliver] = relDeliver st1 := rfl
      rw [this]
      unfold relDeliver
      rw [if_pos (by simp [hl, hslot])]
      exact ⟨by simp [hrel], rfl⟩
    · have hrel : st1.releases = 1 := by
        have h0 := hst.2.1
        have := hst.1
        rcases Nat.lt_or_ge st1.releases 1 with h | h
        · exact absurd (h0.mpr (by omega)) hl
        · omega
      have htx : st1.txSet = false := by
        rcases h : st1.txSet with _ | _
        · rfl
        · exact absurd (hst.2.2.1.mp h) (by omega)
      have : relRun st1 [RelAct.deliver] = relDeliver st1 := rfl
      rw [this]
      unfold relDeliver
      rw [if_neg (by simp [hl])]
      exact ⟨hrel, htx⟩
  · intro d s c htx hwf hopen hbeg
    obtain ⟨w, s1, hcw, hdsn⟩ := connWriter_ok d s c htx hwf hopen
    refine ⟨⟨w⟩, s1, { c with writerConn := some w, tx := some ⟨w⟩ }, ?_⟩
    simp only [connBegin, htx, hcw]
    simp [hdsn, hbeg]

/-- C9 counterexample: the schedule in which `commit()` has returned
(its non-blocking send completed) but the listener goroutine has not
yet been scheduled — the transaction field is still set, and a `Begin`
issued on a connection in that state fails with `driver.ErrBadConn`
instead of immediately succeeding. -/
theorem commit_returned_begin_still_blocked :
    (relRun relInit [RelAct.send]).txSet = true ∧
    (relRun relInit [RelAct.send]).releases = 0 ∧
    (connBegin dPlain st0 cInTx).1 = Res.fails Err.badConn :=
  ⟨rfl, rfl, rfl⟩

/-- Witness for the amended C9 at the duplicate-release schedule
`[send, send]` followed by the listener running. -/
theorem release_exactly_once_witness :
    (relRun relInit [RelAct.send, RelAct.send]).releases ≤ 1 ∧
    (relRun relInit ([RelAct.send, RelAct.send] ++ [RelAct.deliver])).releases
      = 1 ∧
    (relRun relInit ([RelAct.send, RelAct.send] ++ [RelAct.deliver])).txSet
      = false ∧
    (∃ t s1 c1, connBegin dPlain st0 (freshConn "w" []) = (.ok t, s1, c1)) :=
  ⟨(release_exactly_once [RelAct.send, RelAct.send]).1,
   ((release_exactly_once [RelAct.send, RelAct.send]).2.2.1 (by decide)).1,
   ((release_exactly_once [RelAct.send, RelAct.send]).2.2.1 (by decide)).2,
   (release_exactly_once [RelAct.send, RelAct.send]).2.2.2 dPlain st0
     (freshConn "w" []) rfl (fun w h => by cases h) rfl rfl⟩
